import Mathlib

/-!
Verification of the `gin-cache` HTTP response-caching middleware
(`src/cache.go`) against its natural-language specification.

The development shallowly embeds the Go source:

* `GoTime` models Go's `time.Time` as a count of nanoseconds since the
  zero time (January 1, year 1 UTC), which is how `time.Time` orders and
  truncates instants.  `GoTime.unixNano` reproduces `Time.UnixNano`,
  including the wrap-around of signed 64-bit arithmetic that makes the
  zero time's `UnixNano` equal `-6795364578871345152` rather than `0`.
* durations (`time.Duration`) are `Int` nanosecond counts;
* `roundTimeUp`, `getTimeDiff`, `getExpiresAtTime`, `getCacheControl`
  embed the functions of the same names in `src/cache.go`;
* `Cached` embeds the `Cached` struct; `encode`/`decode` model the
  `encoding/gob` codec used by `Cache.Set`/`Cache.Get` (gob itself is
  Go standard library, external to this repository): an executable
  serialization that round-trips every field of `Cached` and fails
  (returns `none`) on byte sequences that do not conform to the schema,
  such as the empty sequence (`gob` reports `io.EOF` there);
* `cacheGet` embeds the method `Cache.Get`, and `ginCacheHandler`
  embeds the request handler closure returned by `New`, with the
  storage backend's responses and the downstream handler's output
  passed in as parameters (the `Store` interface and the gin pipeline
  are external collaborators).
-/

/-- Go `time.Time`, reduced to the data the cache code observes: the
instant as nanoseconds since the zero time (January 1, year 1 UTC).
The zero value `⟨0⟩` is Go's zero `time.Time`. -/
structure GoTime where
  ns : Int
deriving DecidableEq, Repr

/-- Signed 64-bit wrap-around: the value of an `int64` computation whose
mathematical result is `x`. -/
def wrap64 (x : Int) : Int :=
  (x + 2 ^ 63) % 2 ^ 64 - 2 ^ 63

/-- Seconds between the zero time (year 1) and the Unix epoch (1970),
Go's `unixToInternal`, here scaled to nanoseconds. -/
def unixToInternalNs : Int := 62135596800 * 1000000000

/-- Go `Time.UnixNano`: nanoseconds since the Unix epoch, computed in
`int64` arithmetic, hence wrapping for instants (such as the zero time)
whose distance from 1970 overflows 64 bits. -/
def GoTime.unixNano (t : GoTime) : Int :=
  wrap64 (t.ns - unixToInternalNs)

/-- Go `Time.Before`: strict comparison of instants. -/
def GoTime.before (t u : GoTime) : Bool :=
  t.ns < u.ns

/-- Go `Time.Truncate`: for `d > 0`, round `t` down to a multiple of `d`
since the zero time; for `d ≤ 0`, return `t` unchanged. -/
def GoTime.truncate (t : GoTime) (d : Int) : GoTime :=
  if d ≤ 0 then t else ⟨t.ns - t.ns % d⟩

/-- Go `Time.Add`. -/
def GoTime.add (t : GoTime) (d : Int) : GoTime :=
  ⟨t.ns + d⟩

/-- Go `Time.Sub`, as a duration in nanoseconds. -/
def GoTime.sub (t u : GoTime) : Int :=
  t.ns - u.ns

/-- `roundTimeUp` (src/cache.go:221-225): truncate down to a multiple of
`defaultTime`, then add `defaultTime` once. -/
def roundTimeUp (t : GoTime) (defaultTime : Int) : GoTime :=
  (t.truncate defaultTime).add defaultTime

/-- `getTimeDiff` (src/cache.go:212-215): the duration from `t` to the
rounded-up boundary. -/
def getTimeDiff (t : GoTime) (defaultTime : Int) : Int :=
  (roundTimeUp t defaultTime).sub t

/-- `getExpiresAtTime` (src/cache.go:217-219). -/
def getExpiresAtTime (t : GoTime) (defaultTime : Int) : GoTime :=
  roundTimeUp t defaultTime

/-- `getCacheControl` (src/cache.go:204-210). -/
def getCacheControl (maxAge : Int) : String :=
  if maxAge == 0 then
    "max-age=0, no-cache, no-store, must-revalidate"
  else
    "max-age=" ++ toString maxAge ++ ", public"

/-- The `Cache-Control` value computed at src/cache.go:162 and :189:
`getCacheControl(getTimeDiff(timeNow, expire).Nanoseconds() / 1e9)`.
Go's `/` on `int64` truncates toward zero, which is `Int.tdiv`. -/
def cacheControlHeader (timeNow : GoTime) (expire : Int) : String :=
  getCacheControl (Int.tdiv (getTimeDiff timeNow expire) 1000000000)

/-- The floor, in whole seconds, of the remaining freshness window. -/
def remainingSeconds (timeNow : GoTime) (expire : Int) : Int :=
  Int.tdiv (getTimeDiff timeNow expire) 1000000000

-- Arithmetic facts about the expiry policy.

theorem getTimeDiff_eq_emod (t : GoTime) (d : Int) (hd : 0 < d) :
    getTimeDiff t d = d - t.ns % d := by
  unfold getTimeDiff roundTimeUp GoTime.truncate GoTime.add GoTime.sub
  rw [if_neg (by omega)]
  ring

theorem getTimeDiff_pos (t : GoTime) (d : Int) (hd : 0 < d) :
    0 < getTimeDiff t d := by
  rw [getTimeDiff_eq_emod t d hd]
  have := Int.emod_lt_of_pos t.ns hd
  omega

theorem getTimeDiff_le (t : GoTime) (d : Int) (hd : 0 < d) :
    getTimeDiff t d ≤ d := by
  rw [getTimeDiff_eq_emod t d hd]
  have := Int.emod_nonneg t.ns (by omega : d ≠ 0)
  omega

/-- C4 counterexample: with `D` = 60s and `now` exactly on a bucket
boundary (120s past the zero time), `getTimeDiff` returns exactly `D`,
so the remaining window is NOT strictly less than `D` and does not lie
in `[0, D)`. -/
theorem c4_counterexample :
    getTimeDiff ⟨120000000000⟩ 60000000000 = 60000000000 ∧
      ¬ getTimeDiff ⟨120000000000⟩ 60000000000 < 60000000000 := by
  constructor
  · decide
  · decide

/-- C4 (amended): for every instant `now` and duration `D > 0`,
`getTimeDiff now D` equals `roundTimeUp now D` minus `now`, where
`roundTimeUp` truncates `now` down to a multiple of `D` from the zero
time and adds `D` once; the result always lies in the half-open
interval `(0, D]` — in particular it equals `D` (it is never less than
`D`) exactly when `now` falls on a bucket boundary. -/
theorem c4_remaining_window_amended (now : GoTime) (D : Int) (hD : 0 < D) :
    getTimeDiff now D = (roundTimeUp now D).sub now ∧
      roundTimeUp now D = (now.truncate D).add D ∧
      0 < getTimeDiff now D ∧ getTimeDiff now D ≤ D ∧
      (getTimeDiff now D = D ↔ now.ns % D = 0) := by
  refine ⟨rfl, rfl, getTimeDiff_pos now D hD, getTimeDiff_le now D hD, ?_⟩
  rw [getTimeDiff_eq_emod now D hD]
  omega

theorem c4_witness :
    (0 : Int) < 60000000000 ∧
      (getTimeDiff ⟨125000000000⟩ 60000000000 =
          (roundTimeUp ⟨125000000000⟩ 60000000000).sub ⟨125000000000⟩ ∧
        roundTimeUp ⟨125000000000⟩ 60000000000 =
          ((⟨125000000000⟩ : GoTime).truncate 60000000000).add 60000000000 ∧
        0 < getTimeDiff ⟨125000000000⟩ 60000000000 ∧
        getTimeDiff ⟨125000000000⟩ 60000000000 ≤ 60000000000 ∧
        (getTimeDiff ⟨125000000000⟩ 60000000000 = 60000000000 ↔
          (⟨125000000000⟩ : GoTime).ns % 60000000000 = 0)) :=
  ⟨by decide, c4_remaining_window_amended ⟨125000000000⟩ 60000000000 (by decide)⟩

theorem maxAge_public_ne_noStore (s : String) :
    ("max-age=" ++ s ++ ", public") ≠
      "max-age=0, no-cache, no-store, must-revalidate" := by
  obtain ⟨l⟩ := s
  intro h
  have hd2 : "max-age=".data ++ l ++ ", public".data
      = "max-age=0, no-cache, no-store, must-revalidate".data :=
    congrArg String.data h
  have h3 := congrArg List.getLast? hd2
  rw [List.getLast?_append, List.getLast?_append] at h3
  simp at h3

theorem getCacheControl_noStore_iff (m : Int) :
    (getCacheControl m = "max-age=0, no-cache, no-store, must-revalidate" ↔ m = 0) ∧
      (m ≠ 0 → getCacheControl m = "max-age=" ++ toString m ++ ", public") := by
  by_cases h : m = 0
  · subst h
    exact ⟨by simp [getCacheControl], fun hc => absurd rfl hc⟩
  · refine ⟨⟨fun hs => ?_, fun hm => absurd hm h⟩, fun _ => by simp [getCacheControl, h]⟩
    rw [getCacheControl, if_neg (by simpa using h)] at hs
    exact (maxAge_public_ne_noStore (toString m) hs).elim

theorem remainingSeconds_of_expire_zero (timeNow : GoTime) :
    remainingSeconds timeNow 0 = 0 := by
  unfold remainingSeconds getTimeDiff roundTimeUp GoTime.truncate GoTime.add GoTime.sub
  simp

/-- C5 counterexample: with TTL = 60s (enabled, nonzero) and the
reference time half a second before the next boundary, only half a
second of the window remains, its floor in seconds is 0, and the
`Cache-Control` header is the disabled-TTL string even though the TTL
is not 0. -/
theorem c5_counterexample :
    cacheControlHeader ⟨59500000000⟩ 60000000000 =
        "max-age=0, no-cache, no-store, must-revalidate" ∧
      (60000000000 : Int) ≠ 0 := by
  constructor
  · rfl
  · decide

/-- C5 (amended): the `Cache-Control` response header equals
`"max-age=0, no-cache, no-store, must-revalidate"` exactly when the
integer floor in seconds of the remaining freshness window at the
reference time is 0 — which always holds when the configured TTL is
disabled (duration 0), but also holds for an enabled TTL whenever less
than one second of the window remains — and otherwise equals
`"max-age=<seconds>, public"` where `<seconds>` is that floor. -/
theorem c5_cache_control_amended (timeNow : GoTime) (expire : Int) :
    (cacheControlHeader timeNow expire =
        "max-age=0, no-cache, no-store, must-revalidate" ↔
      remainingSeconds timeNow expire = 0) ∧
      (expire = 0 → remainingSeconds timeNow expire = 0) ∧
      (remainingSeconds timeNow expire ≠ 0 →
        cacheControlHeader timeNow expire =
          "max-age=" ++ toString (remainingSeconds timeNow expire) ++ ", public") := by
  have hspec := getCacheControl_noStore_iff (remainingSeconds timeNow expire)
  have hrfl : cacheControlHeader timeNow expire
      = getCacheControl (remainingSeconds timeNow expire) := rfl
  refine ⟨hrfl ▸ hspec.1, ?_, fun h => hrfl ▸ hspec.2 h⟩
  intro h
  subst h
  exact remainingSeconds_of_expire_zero timeNow

theorem c5_witness :
    (cacheControlHeader ⟨0⟩ 60000000000 =
        "max-age=0, no-cache, no-store, must-revalidate" ↔
      remainingSeconds ⟨0⟩ 60000000000 = 0) ∧
      ((60000000000 : Int) = 0 → remainingSeconds ⟨0⟩ 60000000000 = 0) ∧
      (remainingSeconds ⟨0⟩ 60000000000 ≠ 0 →
        cacheControlHeader ⟨0⟩ 60000000000 =
          "max-age=" ++ toString (remainingSeconds ⟨0⟩ 60000000000) ++ ", public") :=
  c5_cache_control_amended ⟨0⟩ 60000000000

/-- C6: for every duration `D > 0` and every two reference instants in
the same `D`-wide window — the second at or after the first and still
strictly before the boundary `roundTimeUp` computes for the first —
`roundTimeUp` (and hence `getExpiresAtTime`) returns the same
expiration instant for both. -/
theorem bucketStart_eq (a b D : Int) (hD : 0 < D) (hab : a ≤ b)
    (hb : b < a - a % D + D) : b - b % D = a - a % D := by
  have h0 := Int.emod_nonneg a (show D ≠ 0 by omega)
  have h1 := Int.emod_lt_of_pos a hD
  obtain ⟨q, hq⟩ := Int.dvd_sub_of_emod_eq (rfl : a % D = a % D)
  have hr : b % D = b - (a - a % D) := by
    have hb2 : b = (b - (a - a % D)) + D * q := by omega
    calc b % D = ((b - (a - a % D)) + D * q) % D := by rw [← hb2]
    _ = (b - (a - a % D)) % D := Int.add_mul_emod_self_left _ _ _
    _ = b - (a - a % D) := Int.emod_eq_of_lt (by omega) (by omega)
  omega

theorem c6_bucket_sharing (t1 t2 : GoTime) (D : Int) (hD : 0 < D)
    (h12 : t1.ns ≤ t2.ns) (h2 : t2.ns < (roundTimeUp t1 D).ns) :
    roundTimeUp t1 D = roundTimeUp t2 D ∧
      getExpiresAtTime t1 D = getExpiresAtTime t2 D := by
  have hbound : (roundTimeUp t1 D).ns = t1.ns - t1.ns % D + D := by
    unfold roundTimeUp GoTime.truncate GoTime.add
    rw [if_neg (by omega)]
  have key := bucketStart_eq t1.ns t2.ns D hD h12 (by omega)
  have hmain : roundTimeUp t1 D = roundTimeUp t2 D := by
    unfold roundTimeUp GoTime.truncate GoTime.add
    rw [if_neg (by omega), if_neg (by omega)]
    simp only [GoTime.mk.injEq]
    omega
  exact ⟨hmain, hmain⟩

theorem c6_witness :
    (0 : Int) < 60000000000 ∧
      (⟨70000000000⟩ : GoTime).ns ≤ (⟨75000000000⟩ : GoTime).ns ∧
      (⟨75000000000⟩ : GoTime).ns < (roundTimeUp ⟨70000000000⟩ 60000000000).ns ∧
      (roundTimeUp ⟨70000000000⟩ 60000000000 = roundTimeUp ⟨75000000000⟩ 60000000000 ∧
        getExpiresAtTime ⟨70000000000⟩ 60000000000 =
          getExpiresAtTime ⟨75000000000⟩ 60000000000) :=
  ⟨by decide, by decide, by decide,
    c6_bucket_sharing ⟨70000000000⟩ ⟨75000000000⟩ 60000000000
      (by decide) (by decide) (by decide)⟩

/-- The `Cached` struct (src/cache.go:25-30): a captured response.
`header` models `http.Header` (`map[string][]string`) as an association
list of header name to ordered values; `body` is the byte sequence. -/
structure Cached where
  status : Int
  body : List Nat
  header : List (String × List String)
  expireAt : GoTime
deriving DecidableEq, Repr

-- The gob codec model: a length-prefixed executable serialization of
-- `Cached` with the contract of `encoding/gob` as used at
-- src/cache.go:69/87 (round-trips every field; returns `none` on bytes
-- that do not conform to the schema, e.g. the empty sequence, where
-- gob reports `io.EOF` and leaves the decoded pointer nil).

/-- Encode a byte sequence, length-prefixed. -/
def encBytes (bs : List Nat) : List Nat := bs.length :: bs

/-- Encode a string as its length-prefixed character codes. -/
def encString (s : String) : List Nat := encBytes (s.data.map Char.toNat)

/-- Encode an integer as a sign tag and magnitude. -/
def encInt (i : Int) : List Nat := if 0 ≤ i then [0, i.toNat] else [1, (-i).toNat]

/-- Encode a list of header values. -/
def encValues (vs : List String) : List Nat := vs.length :: vs.flatMap encString

/-- Encode the header multi-map. -/
def encHeader (h : List (String × List String)) : List Nat :=
  h.length :: h.flatMap (fun p => encString p.1 ++ encValues p.2)

/-- `encode`: the bytes `Cache.Set` (src/cache.go:85-91) writes for a
`Cached` value. -/
def encode (c : Cached) : List Nat :=
  encInt c.status ++ encBytes c.body ++ encHeader c.header ++ encInt c.expireAt.ns

/-- Split off the first `n` elements, failing if fewer remain. -/
def takeN : Nat → List Nat → Option (List Nat × List Nat)
  | 0, xs => some ([], xs)
  | _ + 1, [] => none
  | n + 1, x :: xs => (takeN n xs).map (fun p => (x :: p.1, p.2))

def decBytes : List Nat → Option (List Nat × List Nat)
  | [] => none
  | n :: rest => takeN n rest

def decString (l : List Nat) : Option (String × List Nat) :=
  (decBytes l).map (fun p => (String.mk (p.1.map Char.ofNat), p.2))

def decInt : List Nat → Option (Int × List Nat)
  | 0 :: n :: rest => some ((n : Int), rest)
  | 1 :: n :: rest => some (-(n : Int), rest)
  | _ => none

def decStrings : Nat → List Nat → Option (List String × List Nat)
  | 0, l => some ([], l)
  | n + 1, l =>
    match decString l with
    | none => none
    | some (s, l1) =>
      match decStrings n l1 with
      | none => none
      | some (ss, l2) => some (s :: ss, l2)

def decValues : List Nat → Option (List String × List Nat)
  | [] => none
  | n :: rest => decStrings n rest

def decPairs : Nat → List Nat → Option (List (String × List String) × List Nat)
  | 0, l => some ([], l)
  | n + 1, l =>
    match decString l with
    | none => none
    | some (s, l1) =>
      match decValues l1 with
      | none => none
      | some (vs, l2) =>
        match decPairs n l2 with
        | none => none
        | some (ps, l3) => some ((s, vs) :: ps, l3)

def decHeader : List Nat → Option (List (String × List String) × List Nat)
  | [] => none
  | n :: rest => decPairs n rest

def decCached (l : List Nat) : Option (Cached × List Nat) :=
  match decInt l with
  | none => none
  | some (st, l1) =>
    match decBytes l1 with
    | none => none
    | some (bd, l2) =>
      match decHeader l2 with
      | none => none
      | some (hd, l3) =>
        match decInt l3 with
        | none => none
        | some (ns, l4) => some ({ status := st, body := bd, header := hd, expireAt := ⟨ns⟩ }, l4)

/-- `decode`: the `Cached` value gob decoding at src/cache.go:69-70
produces from stored bytes, `none` when decoding fails (in the Go code
the error is ignored and the `*Cached` pointer then remains nil). -/
def decode (l : List Nat) : Option Cached := (decCached l).map Prod.fst

-- Round-trip lemmas for the codec.

theorem takeN_append (l r : List Nat) : takeN l.length (l ++ r) = some (l, r) := by
  induction l with
  | nil => rfl
  | cons x xs ih => simp [takeN, ih]

theorem decBytes_enc (bs r : List Nat) : decBytes (encBytes bs ++ r) = some (bs, r) := by
  simp [decBytes, encBytes, takeN_append]

theorem decString_enc (s : String) (r : List Nat) :
    decString (encString s ++ r) = some (s, r) := by
  obtain ⟨l⟩ := s
  simp only [decString, encString, decBytes_enc, Option.map_some]
  simp [List.map_map, Function.comp_def, Char.ofNat_toNat]

theorem decInt_enc (i : Int) (r : List Nat) : decInt (encInt i ++ r) = some (i, r) := by
  by_cases h : 0 ≤ i
  · simp [encInt, h, decInt, Int.toNat_of_nonneg h]
  · have : (0 : Int) ≤ -i := by omega
    simp [encInt, h, decInt, Int.toNat_of_nonneg this]

theorem decStrings_enc (vs : List String) (r : List Nat) :
    decStrings vs.length (vs.flatMap encString ++ r) = some (vs, r) := by
  induction vs with
  | nil => rfl
  | cons v vs ih =>
    simp only [List.length_cons, List.flatMap_cons, List.append_assoc, decStrings,
      decString_enc, ih]

theorem decValues_enc (vs : List String) (r : List Nat) :
    decValues (encValues vs ++ r) = some (vs, r) := by
  simp [decValues, encValues, decStrings_enc]

theorem decPairs_enc (h : List (String × List String)) (r : List Nat) :
    decPairs h.length (h.flatMap (fun p => encString p.1 ++ encValues p.2) ++ r) =
      some (h, r) := by
  induction h with
  | nil => rfl
  | cons p ps ih =>
    simp only [List.length_cons, List.flatMap_cons, List.append_assoc, decPairs,
      decString_enc, decValues_enc, ih]

theorem decHeader_enc (h : List (String × List String)) (r : List Nat) :
    decHeader (encHeader h ++ r) = some (h, r) := by
  simp [decHeader, encHeader, decPairs_enc]

theorem decCached_enc (c : Cached) (r : List Nat) :
    decCached (encode c ++ r) = some (c, r) := by
  simp only [decCached, encode, List.append_assoc, decInt_enc, decBytes_enc, decHeader_enc]

theorem decode_encode (c : Cached) : decode (encode c) = some c := by
  have h := decCached_enc c []
  rw [List.append_nil] at h
  simp [decode, h]

/-- The outcome of `Cache.Get` (src/cache.go:66-83) as its caller and
the storage backend observe it. -/
structure GetOutcome where
  /-- The method hit a nil-pointer dereference (uncontrolled panic). -/
  panicked : Bool
  /-- The `*Cached` return value (`none` = nil). -/
  value : Option Cached
  /-- The `error` return value. -/
  errOut : Option String
  /-- Whether `Store.Remove` was invoked on the key. -/
  removeAttempted : Bool
deriving DecidableEq, Repr

/-- `Cache.Get` (src/cache.go:66-83).  `getRes` is what `Store.Get`
returned for the key, `removeRes` what `Store.Remove` would return
(line 73 discards it), `now` the value of `time.Now()` at line 72.
Per the source: a storage error is returned as `(nil, err)`; on
success the gob decode error is ignored (line 70), so when decoding
fails the nil `cch` pointer is dereferenced at line 72 — a panic;
otherwise, when `cch.ExpireAt.UnixNano() != 0` and `cch.ExpireAt` is
strictly before `now`, the key is removed (result of `Remove`
discarded) and `(nil, nil)` returned; else `(cch, nil)`. -/
def cacheGet (getRes : Except String (List Nat)) (removeRes : Except String Unit)
    (now : GoTime) : GetOutcome :=
  match getRes with
  | .error e => { panicked := false, value := none, errOut := some e, removeAttempted := false }
  | .ok data =>
    match decode data with
    | none => { panicked := true, value := none, errOut := none, removeAttempted := false }
    | some cch =>
      if cch.expireAt.unixNano ≠ 0 ∧ cch.expireAt.before now then
        match removeRes with
        | _ => { panicked := false, value := none, errOut := none, removeAttempted := true }
      else
        { panicked := false, value := some cch, errOut := none, removeAttempted := false }

/-- The `ExpireAt` value `New`'s miss path stores (src/cache.go:170-176):
the zero `time.Time` when the configured TTL is 0, the bucket boundary
otherwise. -/
def storedExpireAt (expire : Int) (timeNow : GoTime) : GoTime :=
  if expire = 0 then ⟨0⟩ else getExpiresAtTime timeNow expire

/-- A sample captured response: status 200, body `"h"`, one header
with one value, stored under TTL 0 (so with the zero-time sentinel). -/
def sampleTtlZeroEntry : Cached :=
  ⟨200, [104], [("A", ["b"])], storedExpireAt 0 ⟨1000000000000⟩⟩

/-- A sample captured response whose `expireAt` is the given instant. -/
def sampleEntryAt (t : GoTime) : Cached :=
  ⟨200, [104], [], t⟩

/-- A reference instant with nonzero `UnixNano`: 5 s after the Unix
epoch. -/
def epochPlus5s : GoTime := ⟨unixToInternalNs + 5000000000⟩

/-- A reference instant 9 s after the Unix epoch. -/
def epochPlus9s : GoTime := ⟨unixToInternalNs + 9000000000⟩

/-- A realistic lookup instant: 2^60 ns after the zero time. -/
def someLookupTime : GoTime := ⟨1152921504606846976⟩

/-- C1 (code bug): with TTL 0 the stored entry's `expireAt` IS the
zero-value sentinel, but a subsequent lookup does NOT serve it as
fresh: the zero `time.Time`'s `UnixNano()` is `-6795364578871345152`,
not `0`, so the sentinel check at src/cache.go:72 fails to recognize
the sentinel `Set` stored (src/cache.go:170-176), the zero instant is
`Before` any realistic `now`, and the entry is removed and reported as
a miss.  Evaluated here at a concrete entry stored under TTL 0 and
looked up at a realistic instant. -/
theorem c1_ttl_zero_entry_expired :
    sampleTtlZeroEntry.expireAt = ⟨0⟩ ∧
      (⟨0⟩ : GoTime).unixNano = -6795364578871345152 ∧
      (cacheGet (.ok (encode sampleTtlZeroEntry)) (.ok ()) someLookupTime).value
        = none ∧
      (cacheGet (.ok (encode sampleTtlZeroEntry)) (.ok ()) someLookupTime).removeAttempted
        = true := by
  refine ⟨rfl, by decide, ?_, ?_⟩ <;>
    simp [cacheGet, decode_encode, sampleTtlZeroEntry, storedExpireAt,
      someLookupTime, GoTime.unixNano, wrap64, unixToInternalNs, GoTime.before]

/-- C2 (code bug): on a byte sequence that does not conform to the
entry schema (here: the empty sequence, on which gob reports `io.EOF`),
`Cache.Get` does not report a `CorruptEntry` error and does not treat
the entry as a miss — it ignores the decode error (src/cache.go:70)
and dereferences the nil `*Cached` at line 72, an uncontrolled panic. -/
theorem c2_malformed_bytes_panic :
    decode [] = none ∧
      (cacheGet (.ok []) (.ok ()) someLookupTime).panicked = true := by
  constructor
  · rfl
  · rfl

/-- C3 counterexample: an entry whose `expireAt` is set (nonzero
`UnixNano`) and exactly AT the current time is NOT treated as a miss:
`Time.Before` at src/cache.go:72 is strict, so the entry is served and
no removal is attempted — the claim's "at or before" is wrong at the
boundary. -/
theorem c3_counterexample :
    epochPlus5s.unixNano ≠ 0 ∧
      (cacheGet (.ok (encode (sampleEntryAt epochPlus5s))) (.ok ()) epochPlus5s).value
        ≠ none ∧
      (cacheGet (.ok (encode (sampleEntryAt epochPlus5s))) (.ok ()) epochPlus5s).removeAttempted
        = false := by
  refine ⟨by decide, ?_, ?_⟩ <;>
    simp [cacheGet, decode_encode, sampleEntryAt, epochPlus5s, GoTime.unixNano,
      wrap64, unixToInternalNs, GoTime.before]

/-- C3 (amended): for every stored entry whose `expireAt` has nonzero
`UnixNano` and is STRICTLY before the current time, a lookup reports a
miss (nil value, nil error — the entry is not served), removal of the
key from Storage is attempted, and the removal outcome is ignored: the
lookup result is the same whether `Store.Remove` succeeds or fails. -/
theorem c3_expired_hit_is_miss_amended (data : List Nat) (entry : Cached)
    (now : GoTime) (removeRes : Except String Unit)
    (hdec : decode data = some entry)
    (hset : entry.expireAt.unixNano ≠ 0)
    (hbefore : entry.expireAt.before now = true) :
    (cacheGet (.ok data) removeRes now).value = none ∧
      (cacheGet (.ok data) removeRes now).errOut = none ∧
      (cacheGet (.ok data) removeRes now).removeAttempted = true ∧
      cacheGet (.ok data) removeRes now = cacheGet (.ok data) (.error "fail") now := by
  have hcond : entry.expireAt.unixNano ≠ 0 ∧ entry.expireAt.before now :=
    ⟨hset, by simp [hbefore]⟩
  cases removeRes <;> simp [cacheGet, hdec, hcond]

theorem c3_witness :
    decode (encode (sampleEntryAt epochPlus5s)) = some (sampleEntryAt epochPlus5s) ∧
      (sampleEntryAt epochPlus5s).expireAt.unixNano ≠ 0 ∧
      (sampleEntryAt epochPlus5s).expireAt.before epochPlus9s = true ∧
      ((cacheGet (.ok (encode (sampleEntryAt epochPlus5s))) (.ok ()) epochPlus9s).value
          = none ∧
        (cacheGet (.ok (encode (sampleEntryAt epochPlus5s))) (.ok ()) epochPlus9s).errOut
          = none ∧
        (cacheGet (.ok (encode (sampleEntryAt epochPlus5s))) (.ok ()) epochPlus9s).removeAttempted
          = true ∧
        cacheGet (.ok (encode (sampleEntryAt epochPlus5s))) (.ok ()) epochPlus9s =
          cacheGet (.ok (encode (sampleEntryAt epochPlus5s))) (.error "fail") epochPlus9s) :=
  ⟨decode_encode _, by decide, by decide,
    c3_expired_hit_is_miss_amended _ _ _ _ (decode_encode _) (by decide) (by decide)⟩

/-- C7: for every `CacheEntry` with non-empty multi-valued headers and
non-empty body, decoding the bytes produced by encoding it yields the
same entry field-for-field: status, header multi-map with per-name
value order, body bytes, and expiry instant. -/
theorem c7_roundtrip (c : Cached) (hh : c.header ≠ [])
    (hv : ∀ p ∈ c.header, p.2 ≠ []) (hb : c.body ≠ []) :
    decode (encode c) = some c ∧
      (decode (encode c)).map Cached.status = some c.status ∧
      (decode (encode c)).map Cached.header = some c.header ∧
      (decode (encode c)).map Cached.body = some c.body ∧
      (decode (encode c)).map Cached.expireAt = some c.expireAt := by
  simp [decode_encode]

/-- A sample entry with multi-valued headers and a two-byte body. -/
def sampleMultiEntry : Cached :=
  ⟨200, [104, 105], [("A", ["b", "c"])], ⟨1⟩⟩

theorem c7_witness :
    sampleMultiEntry.header ≠ [] ∧
      (∀ p ∈ sampleMultiEntry.header, p.2 ≠ []) ∧
      sampleMultiEntry.body ≠ [] ∧
      decode (encode sampleMultiEntry) = some sampleMultiEntry :=
  ⟨by decide, by decide, by decide,
    (c7_roundtrip sampleMultiEntry (by decide) (by decide) (by decide)).1⟩

/-- `Options` (src/cache.go:40-45).  `headers = none` models a nil
`Headers` slice. -/
structure Options where
  expire : Int
  headers : Option (List String)
  doNotUseAbort : Bool
deriving DecidableEq, Repr

/-- The default header allow-list (src/cache.go:48-57), including the
source's duplicated `"User-Agent"` entry. -/
def defaultHeaders : List String :=
  ["User-Agent", "Accept", "Accept-Encoding", "Accept-Language", "Cookie",
    "User-Agent"]

/-- `Options.init` (src/cache.go:47-58): fill in the default allow-list
when none was supplied. -/
def Options.init (o : Options) : Options :=
  match o.headers with
  | none => { o with headers := some defaultHeaders }
  | some _ => o

/-- The incoming request, as the handler reads it: method,
`URL.RequestURI()`, and the header map. -/
structure Request where
  method : String
  requestURI : String
  header : List (String × List String)
deriving DecidableEq, Repr

/-- Go map lookup `c.Request.Header[k]` over the association list. -/
def headerLookup (hs : List (String × List String)) (k : String) :
    Option (List String) :=
  (hs.find? (fun p => p.1 == k)).map Prod.snd

/-- The string hashed for the cache key (src/cache.go:141-147): the
request URI followed by, for each allow-listed header present on the
request, the header name and its values joined with the empty
separator. -/
def toHash (headerList : List String) (req : Request) : String :=
  headerList.foldl
    (fun acc k =>
      match headerLookup req.header k with
      | some v => acc ++ k ++ String.join v
      | none => acc)
    req.requestURI

/-- `KEY_PREFIX` (src/cache.go:18). -/
def keyPrefix : String := "gin:cache:"

/-- A value stored in the gin context under a key (`c.Get`): either a
`time.Time` or a value of some other dynamic type. -/
inductive GinVal where
  | timeVal : GoTime → GinVal
  | otherVal : GinVal
deriving DecidableEq, Repr

/-- What the wrapped writer observed once `c.Next()` returned on the
miss path: the downstream status, the final contents of the response
header map, and the body bytes the tap captured (src/cache.go:102-113,
166-169). -/
structure Downstream where
  status : Int
  finalHeader : List (String × List String)
  body : List Nat
deriving DecidableEq, Repr

/-- Everything the handler closure of `New` (src/cache.go:133-200) did
to its collaborators on one request.  `statusWritten` and
`bodyWritten` are what the middleware itself wrote to the response
writer (on the miss path the downstream handler, not the middleware,
writes the response). -/
structure HandlerOutcome where
  panicked : Bool
  nextCalled : Bool
  storeReads : List String
  storeWrites : List (String × List Nat)
  removeAttempted : Bool
  headersAdded : List (String × String)
  headersSet : List (String × String)
  statusWritten : Option Int
  bodyWritten : List Nat
  aborted : Bool
deriving DecidableEq, Repr

/-- The outcome of an ineligible (non-GET) request (src/cache.go:136-139):
call `c.Next()` and return, touching nothing. -/
def bypassOutcome : HandlerOutcome :=
  { panicked := false, nextCalled := true, storeReads := [], storeWrites := [],
    removeAttempted := false, headersAdded := [], headersSet := [],
    statusWritten := none, bodyWritten := [], aborted := false }

/-- The handler closure returned by `New` (src/cache.go:133-200).
External collaborators are passed in: `md5` the hex digest function
(`md5String`, from Go's standard library), `storeGetF` the backend's
response to `Store.Get`, `setRes`/`removeRes` the backend's responses
to `Store.Set`/`Store.Remove`, `realNow` the value of `time.Now()`
inside `Cache.Get`, `timeNowVal` the value under the context key
`"TimeNow"`, and `downstream` what the wrapped writer captured from
downstream processing.  Per the source: non-GET requests bypass
everything; the `"TimeNow"` value is type-asserted to `time.Time`
without a comma-ok check (line 153), panicking when absent or of
another type; a lookup error is discarded (line 155) so any non-hit
takes the miss path; on a miss the Etag/MISS/Cache-Control headers are
added, `c.Next()` runs, and the captured entry is encoded and written,
the write's error being discarded (line 166); on a hit the cached
status, headers and body are written and the request aborted unless
`DoNotUseAbort`. -/
def ginCacheHandler (opts : Options) (md5 : String → String)
    (storeGetF : String → Except String (List Nat))
    (setRes : Except String Unit) (removeRes : Except String Unit)
    (realNow : GoTime) (req : Request) (timeNowVal : Option GinVal)
    (downstream : Downstream) : HandlerOutcome :=
  let o := opts.init
  if req.method ≠ "GET" then bypassOutcome
  else
    let key := keyPrefix ++ md5 (toHash (o.headers.getD []) req)
    match timeNowVal with
    | some (.timeVal timeNow) =>
      let g := cacheGet (storeGetF key) removeRes realNow
      if g.panicked then
        { panicked := true, nextCalled := false, storeReads := [key],
          storeWrites := [], removeAttempted := g.removeAttempted,
          headersAdded := [], headersSet := [], statusWritten := none,
          bodyWritten := [], aborted := false }
      else
        match g.value with
        | none =>
          let entry : Cached :=
            ⟨downstream.status, downstream.body, downstream.finalHeader,
              storedExpireAt o.expire timeNow⟩
          match setRes with
          | _ =>
            { panicked := false, nextCalled := true, storeReads := [key],
              storeWrites := [(key, encode entry)],
              removeAttempted := g.removeAttempted,
              headersAdded := [("Etag", key), ("X-Gin-Cache-Hit", "MISS"),
                ("Cache-Control", cacheControlHeader timeNow o.expire)],
              headersSet := [], statusWritten := none, bodyWritten := [],
              aborted := false }
        | some cch =>
          { panicked := false, nextCalled := false, storeReads := [key],
            storeWrites := [], removeAttempted := false,
            headersAdded := cch.header.flatMap
              (fun p => p.2.map (fun v => (p.1, v))),
            headersSet := [("X-Gin-Cache-Hit", "HIT"),
              ("Cache-Control", cacheControlHeader timeNow o.expire)],
            statusWritten := some cch.status, bodyWritten := cch.body,
            aborted := !o.doNotUseAbort }
    | _ =>
      { panicked := true, nextCalled := false, storeReads := [],
        storeWrites := [], removeAttempted := false, headersAdded := [],
        headersSet := [], statusWritten := none, bodyWritten := [],
        aborted := false }

/-- C8: for every request whose method is not GET, the cache is never
consulted — no storage read, write or removal — no response headers
are added or set, nothing is written to the response, the request is
not aborted, and it proceeds downstream (`c.Next()`) with the response
state untouched by the interceptor. -/
theorem c8_non_get_bypass (opts : Options) (md5 : String → String)
    (storeGetF : String → Except String (List Nat))
    (setRes removeRes : Except String Unit) (realNow : GoTime) (req : Request)
    (timeNowVal : Option GinVal) (downstream : Downstream)
    (hm : req.method ≠ "GET") :
    ginCacheHandler opts md5 storeGetF setRes removeRes realNow req timeNowVal
        downstream = bypassOutcome ∧
      (ginCacheHandler opts md5 storeGetF setRes removeRes realNow req timeNowVal
        downstream).storeReads = [] ∧
      (ginCacheHandler opts md5 storeGetF setRes removeRes realNow req timeNowVal
        downstream).storeWrites = [] ∧
      (ginCacheHandler opts md5 storeGetF setRes removeRes realNow req timeNowVal
        downstream).headersAdded = [] ∧
      (ginCacheHandler opts md5 storeGetF setRes removeRes realNow req timeNowVal
        downstream).headersSet = [] ∧
      (ginCacheHandler opts md5 storeGetF setRes removeRes realNow req timeNowVal
        downstream).nextCalled = true := by
  have h : ginCacheHandler opts md5 storeGetF setRes removeRes realNow req
      timeNowVal downstream = bypassOutcome := by
    unfold ginCacheHandler
    simp [hm]
  rw [h]
  exact ⟨rfl, rfl, rfl, rfl, rfl, rfl⟩

/-- A sample POST request to `/a`. -/
def samplePostReq : Request := ⟨"POST", "/a", []⟩

/-- A sample in-memory miss backend: every key is absent. -/
def missingStore : String → Except String (List Nat) :=
  fun _ => .error "not found"

/-- A sample downstream response: status 200, body `"hello"`. -/
def sampleDownstream : Downstream :=
  ⟨200, [("Content-Type", ["text/plain"])], [104, 101, 108, 108, 111]⟩

/-- Sample options: TTL 60 s, default allow-list, abort on hit. -/
def sampleOptions : Options := ⟨60000000000, none, false⟩

theorem c8_witness :
    samplePostReq.method ≠ "GET" ∧
      (ginCacheHandler sampleOptions id missingStore (.ok ()) (.ok ())
          someLookupTime samplePostReq (some (.timeVal someLookupTime))
          sampleDownstream = bypassOutcome ∧
        (ginCacheHandler sampleOptions id missingStore (.ok ()) (.ok ())
          someLookupTime samplePostReq (some (.timeVal someLookupTime))
          sampleDownstream).storeReads = [] ∧
        (ginCacheHandler sampleOptions id missingStore (.ok ()) (.ok ())
          someLookupTime samplePostReq (some (.timeVal someLookupTime))
          sampleDownstream).storeWrites = [] ∧
        (ginCacheHandler sampleOptions id missingStore (.ok ()) (.ok ())
          someLookupTime samplePostReq (some (.timeVal someLookupTime))
          sampleDownstream).headersAdded = [] ∧
        (ginCacheHandler sampleOptions id missingStore (.ok ()) (.ok ())
          someLookupTime samplePostReq (some (.timeVal someLookupTime))
          sampleDownstream).headersSet = [] ∧
        (ginCacheHandler sampleOptions id missingStore (.ok ()) (.ok ())
          someLookupTime samplePostReq (some (.timeVal someLookupTime))
          sampleDownstream).nextCalled = true) :=
  ⟨by decide,
    c8_non_get_bypass sampleOptions id missingStore (.ok ()) (.ok ())
      someLookupTime samplePostReq (some (.timeVal someLookupTime))
      sampleDownstream (by decide)⟩

/-- A sample eligible request. -/
def sampleGetReq : Request := ⟨"GET", "/a?x=1", []⟩

/-- C9 counterexample: on a cache miss the handler attempts to persist
the captured entry, but when the write fails the failure is NOT
surfaced to the handler's caller: the handler (a `gin.HandlerFunc`
returning nothing) discards `cache.Set`'s error (src/cache.go:166), so
its entire observable outcome with a failing `Store.Set` is identical
to the outcome with a succeeding one — the failure is silently
discarded, not surfaced. -/
theorem c9_counterexample :
    (ginCacheHandler sampleOptions id missingStore (.error "disk full") (.ok ())
        someLookupTime sampleGetReq (some (.timeVal someLookupTime))
        sampleDownstream).storeWrites ≠ [] ∧
      ginCacheHandler sampleOptions id missingStore (.error "disk full") (.ok ())
          someLookupTime sampleGetReq (some (.timeVal someLookupTime))
          sampleDownstream =
        ginCacheHandler sampleOptions id missingStore (.ok ()) (.ok ())
          someLookupTime sampleGetReq (some (.timeVal someLookupTime))
          sampleDownstream := by
  constructor
  · decide
  · rfl

/-- C9 (amended): on a cache miss, a failure to persist the captured
entry is silently discarded — the handler's observable outcome (store
actions, response headers, body, abort and panic state) does not
depend on `Store.Set`'s result at all — and in particular the
already-sent response is not altered. -/
theorem c9_persist_failure_discarded_amended (opts : Options)
    (md5 : String → String) (storeGetF : String → Except String (List Nat))
    (setRes setRes' removeRes : Except String Unit) (realNow : GoTime)
    (req : Request) (timeNowVal : Option GinVal) (downstream : Downstream) :
    ginCacheHandler opts md5 storeGetF setRes removeRes realNow req timeNowVal
        downstream =
      ginCacheHandler opts md5 storeGetF setRes' removeRes realNow req
        timeNowVal downstream := by
  cases setRes <;> cases setRes' <;> rfl

/-- C10: for every eligible (GET) request, the handler requires the
pipeline to have stored a `time.Time` under the context key
`"TimeNow"`: when that key is absent or holds a value of another
dynamic type, the type assertion at src/cache.go:153 panics before the
cache lookup — the handler panics, no storage read or write happens,
and downstream processing is not invoked. -/
theorem c10_timenow_required (opts : Options) (md5 : String → String)
    (storeGetF : String → Except String (List Nat))
    (setRes removeRes : Except String Unit) (realNow : GoTime) (req : Request)
    (timeNowVal : Option GinVal) (downstream : Downstream)
    (hm : req.method = "GET")
    (ht : ∀ t, timeNowVal ≠ some (.timeVal t)) :
    (ginCacheHandler opts md5 storeGetF setRes removeRes realNow req timeNowVal
        downstream).panicked = true ∧
      (ginCacheHandler opts md5 storeGetF setRes removeRes realNow req
        timeNowVal downstream).storeReads = [] ∧
      (ginCacheHandler opts md5 storeGetF setRes removeRes realNow req
        timeNowVal downstream).storeWrites = [] ∧
      (ginCacheHandler opts md5 storeGetF setRes removeRes realNow req
        timeNowVal downstream).nextCalled = false := by
  rcases timeNowVal with _ | v
  · unfold ginCacheHandler
    simp [hm]
  · cases v with
    | timeVal t => exact absurd rfl (ht t)
    | otherVal =>
      unfold ginCacheHandler
      simp [hm]

theorem c10_witness :
    sampleGetReq.method = "GET" ∧
      ((ginCacheHandler sampleOptions id missingStore (.ok ()) (.ok ())
          someLookupTime sampleGetReq none sampleDownstream).panicked = true ∧
        (ginCacheHandler sampleOptions id missingStore (.ok ()) (.ok ())
          someLookupTime sampleGetReq none sampleDownstream).storeReads = [] ∧
        (ginCacheHandler sampleOptions id missingStore (.ok ()) (.ok ())
          someLookupTime sampleGetReq none sampleDownstream).storeWrites = [] ∧
        (ginCacheHandler sampleOptions id missingStore (.ok ()) (.ok ())
          someLookupTime sampleGetReq none sampleDownstream).nextCalled = false) :=
  ⟨rfl,
    c10_timenow_required sampleOptions id missingStore (.ok ()) (.ok ())
      someLookupTime sampleGetReq none sampleDownstream rfl
      (fun _ h => Option.noConfusion h)⟩
